import Mathlib

/-!
Verification of the outbound webhook integration engine of the loan-app
admin console.

The admin screen (the Integrations page) is the authoritative source for
the persisted shapes, the zod write-time validation schema, the mapping
dialog save/open logic and the log/mapping fetch queries; those parts are
embedded directly from that source file.  The compile/send/log engine
itself runs in an edge function (invoked as test-webhook) whose code is
not part of the repository snapshot, so the Field Resolver, Transformation
Library, Mapping Compiler, Dispatcher and Registry entry points are
modelled from the specification, as flagged in their doc comments.
-/

namespace LoanAppAdmin

/-- JSON-like scalar value appearing in webhook payloads. -/
inductive Value where
  | null
  | str (s : String)
  | num (n : Int)
  deriving DecidableEq, Repr

/-- Source record consumed by the Field Resolver: the resolved application
fields plus the linked profile fields, keyed by the dotted source paths
offered by the admin screen (the SOURCE_FIELDS table). -/
structure SourceRecord where
  fields : List (String × Value)
  deriving DecidableEq, Repr

/-! ### String helpers

Kernel-reducible helpers over character lists, standing in for the
JavaScript string primitives the engine uses. -/

/-- Decimal digit character for a value below ten. -/
def digitChar (n : Nat) : Char :=
  Char.ofNat (48 + n)

/-- Decimal digits of a natural number, most significant first; the first
argument is structural fuel (any fuel above the number of digits works). -/
def natDigitsAux : Nat → Nat → List Char
  | 0, _ => []
  | fuel + 1, n =>
    if n < 10 then [digitChar n]
    else natDigitsAux fuel (n / 10) ++ [digitChar (n % 10)]

/-- Decimal rendering of a natural number. -/
def natToString (n : Nat) : String :=
  ⟨natDigitsAux (n + 1) n⟩

/-- Decimal rendering of an integer, mirroring JavaScript String(n) on
integral numbers. -/
def intToString (n : Int) : String :=
  if n < 0 then "-" ++ natToString n.natAbs else natToString n.natAbs

/-- Coercion of a payload value to a string, mirroring JavaScript
String(v); the Transformation Library stringifies non-string input before
case folds and suffix appends. -/
def stringify : Value → String
  | Value.null => "null"
  | Value.str s => s
  | Value.num n => intToString n

/-- ASCII upper case fold of a string, locale-invariant. -/
def asciiUpper (s : String) : String :=
  ⟨s.data.map Char.toUpper⟩

/-- ASCII lower case fold of a string, locale-invariant. -/
def asciiLower (s : String) : String :=
  ⟨s.data.map Char.toLower⟩

/-- Splits a character list at the first whitespace character: the part
before it and the remainder including the whitespace. -/
def breakAtWhitespace : List Char → List Char × List Char
  | [] => ([], [])
  | c :: cs =>
    if c.isWhitespace then ([], c :: cs)
    else
      let p := breakAtWhitespace cs
      (c :: p.1, p.2)

/-- Drops the leading whitespace run of a character list. -/
def dropWhitespaceRun : List Char → List Char
  | [] => []
  | c :: cs => if c.isWhitespace then dropWhitespaceRun cs else c :: cs

/-- Splits a character list on a separator character. -/
def splitOnChar (sep : Char) : List Char → List (List Char)
  | [] => [[]]
  | c :: cs =>
    let rest := splitOnChar sep cs
    if c = sep then [] :: rest
    else
      match rest with
      | [] => [[c]]
      | g :: gs => (c :: g) :: gs

/-- Parses a list of decimal digit characters into a number; empty or
non-digit input yields none. -/
def parseNatDigits : List Char → Option Nat
  | [] => none
  | cs => parseNatAux cs 0
where
  parseNatAux : List Char → Nat → Option Nat
    | [], acc => some acc
    | c :: cs, acc =>
      if c.isDigit then parseNatAux cs (acc * 10 + (c.toNat - 48))
      else none

/-! ### Dates and age -/

/-- Calendar date. -/
structure Date where
  year : Nat
  month : Nat
  day : Nat
  deriving DecidableEq, Repr

/-- Parses the date part of an ISO-8601 date or date-time string
(YYYY-MM-DD, optionally followed by a time suffix); malformed input
yields none. -/
def parseDate (s : String) : Option Date :=
  match splitOnChar '-' (s.data.take 10) with
  | [y, m, d] =>
    match parseNatDigits y, parseNatDigits m, parseNatDigits d with
    | some yn, some mn, some dn =>
      if 1 ≤ mn ∧ mn ≤ 12 ∧ 1 ≤ dn ∧ dn ≤ 31 then some ⟨yn, mn, dn⟩ else none
    | _, _, _ => none
  | _ => none

/-- Modelled from the spec: the calculate_age transformer of the missing
edge function computes whole years elapsed from a date of birth to the
current date by calendar-aware subtraction: the year difference, minus one
when the current month/day precedes the birthday month/day. -/
def calculateAge (dob : Date) (today : Date) : Int :=
  (today.year : Int) - (dob.year : Int) -
    (if today.month < dob.month ∨ (today.month = dob.month ∧ today.day < dob.day)
     then 1 else 0)

/-- Fixed-divisor age for comparison: whole 365-day units between two
dates, computed from the civil day numbers of the dates. -/
def rataDie (d : Date) : Int :=
  let y : Int := if d.month ≤ 2 then (d.year : Int) - 1 else (d.year : Int)
  let m : Int := if d.month ≤ 2 then (d.month : Int) + 12 else (d.month : Int)
  365 * y + y / 4 - y / 100 + y / 400 + (153 * (m + 1)) / 5 + (d.day : Int) - 428

/-- Age under a fixed 365-day divisor, the semantics the spec rules out. -/
def fixedDivisorAge (dob : Date) (today : Date) : Int :=
  (rataDie today - rataDie dob) / 365

/-! ### Field Resolver -/

/-- Modelled from the spec: the Field Resolver of the missing edge
function maps a segmented source path to a scalar value of the record or
absent; the literal path static never reads the record, so the caller
falls through to the mapping default. -/
def resolve (r : SourceRecord) (path : String) : Option Value :=
  if path = "static" then none else r.fields.lookup path

/-! ### Transformation Library -/

/-- Transformer catalog offered by the mapping dialog, from the
TRANSFORMATIONS table of the admin screen. -/
def TRANSFORMATIONS : List String :=
  ["none", "uppercase", "lowercase", "split_first", "split_last",
   "calculate_age", "append_months", "generate_email", "date_format"]

/-- Two-digit zero-padded rendering of a number below 100. -/
def pad2 (n : Nat) : String :=
  if n < 10 then "0" ++ natToString n else natToString n

/-- Modelled from the spec: the generate_email transformer derives a
synthetic address from the record name and a fixed domain. -/
def emailFromName (s : String) : String :=
  ⟨(s.data.map fun c => if c.isWhitespace then '.' else c.toLower)⟩ ++
    "@loanapp.example.com"

/-- Modelled from the spec: the Transformation Library of the missing edge
function.  Each transformer is pure; an absent input, or input of the
wrong shape, degrades to absent instead of raising.  An unknown or null
transformer name is the identity. -/
def applyTransform (today : Date) (r : SourceRecord) (name : Option String) :
    Option Value → Option Value
  | none => none
  | some v =>
    match name with
    | none => some v
    | some n =>
      if n = "uppercase" then some (Value.str (asciiUpper (stringify v)))
      else if n = "lowercase" then some (Value.str (asciiLower (stringify v)))
      else if n = "split_first" then
        some (Value.str ⟨(breakAtWhitespace (stringify v).data).1⟩)
      else if n = "split_last" then
        match dropWhitespaceRun (breakAtWhitespace (stringify v).data).2 with
        | [] => none
        | cs => some (Value.str ⟨cs⟩)
      else if n = "calculate_age" then
        (parseDate (stringify v)).map fun dob => Value.num (calculateAge dob today)
      else if n = "append_months" then some (Value.str (stringify v ++ " months"))
      else if n = "generate_email" then
        (resolve r "profiles.full_name").map fun nameVal =>
          Value.str (emailFromName (stringify nameVal))
      else if n = "date_format" then
        (parseDate (stringify v)).map fun d =>
          Value.str (pad2 d.day ++ "/" ++ pad2 d.month ++ "/" ++ natToString d.year)
      else some v

/-! ### Field mappings and the Mapping Compiler -/

/-- Persisted field mapping row, from the FieldMapping interface of the
admin screen; a stored transformation of none means no transformation. -/
structure FieldMapping where
  id : String
  integration_id : String
  source_field : String
  target_field : String
  transformation : Option String
  default_value : Option String
  is_required : Bool
  field_order : Nat
  deriving DecidableEq, Repr

/-- Modelled from the spec: the final value of one mapping; the resolved
source value, falling back to the configured default when absent, with the
named transformer applied to the result. -/
def finalValue (today : Date) (r : SourceRecord) (m : FieldMapping) : Option Value :=
  applyTransform today r m.transformation
    (match resolve r m.source_field with
     | some v => some v
     | none => m.default_value.map Value.str)

/-- Value written for a mapping that did not fail the required check; an
absent optional value is written as JSON null. -/
def writtenValue (today : Date) (r : SourceRecord) (m : FieldMapping) : Value :=
  (finalValue today r m).getD Value.null

/-- Assignment into a JSON-like object: overwrites the first binding of
the key in place, or appends a new binding. -/
def setKey : List (String × Value) → String → Value → List (String × Value)
  | [], k, v => [(k, v)]
  | (k', v') :: rest, k, v =>
    if k' = k then (k', v) :: rest else (k', v') :: setKey rest k v

/-- First binding of a key in a JSON-like object. -/
def lookupPayload : List (String × Value) → String → Option Value
  | [], _ => none
  | (k', v) :: rest, k => if k' = k then some v else lookupPayload rest k

/-- Validation error text for a required mapping whose final value is
absent. -/
def requiredErrorMessage (k : String) : String :=
  "Required field missing: " ++ k

/-- Modelled from the spec: the Mapping Compiler loop of the missing edge
function.  Mappings are consumed in list order; a required mapping whose
final value is absent aborts the whole compilation with a validation error
naming its target key, and every other mapping writes its target key,
overwriting an earlier binding of the same key. -/
def compileAux (today : Date) (r : SourceRecord) :
    List FieldMapping → List (String × Value) → Except String (List (String × Value))
  | [], acc => Except.ok acc
  | m :: ms, acc =>
    if m.is_required = true ∧ finalValue today r m = none then
      Except.error (requiredErrorMessage m.target_field)
    else compileAux today r ms (setKey acc m.target_field (writtenValue today r m))

/-- Modelled from the spec: compile(record, mappings) builds the payload
object from an empty object. -/
def compile (today : Date) (r : SourceRecord) (ms : List FieldMapping) :
    Except String (List (String × Value)) :=
  compileAux today r ms []

/-! ### Ordering of mappings

The admin screen fetches the mappings of one integration ordered by
ascending field_order (fetchFieldMappings in the source); the engine then
consumes them in that order. -/

/-- Ascending display order on field mappings. -/
def mappingLE (a b : FieldMapping) : Prop :=
  a.field_order ≤ b.field_order

instance : DecidableRel mappingLE :=
  fun a b => inferInstanceAs (Decidable (a.field_order ≤ b.field_order))

instance : IsTotal FieldMapping mappingLE :=
  ⟨fun a b => Nat.le_total a.field_order b.field_order⟩

instance : IsTrans FieldMapping mappingLE :=
  ⟨fun _ _ _ h1 h2 => Nat.le_trans h1 h2⟩

/-- Embeds fetchFieldMappings of the admin screen: the stored mapping rows
of one integration, ordered by ascending field_order. -/
def fetchFieldMappings (db : List FieldMapping) (integrationId : String) :
    List FieldMapping :=
  List.insertionSort mappingLE (db.filter fun m => m.integration_id == integrationId)

/-- Last mapping of a list that writes a given target key. -/
def lastWithTarget (k : String) : List FieldMapping → Option FieldMapping
  | [] => none
  | m :: ms =>
    match lastWithTarget k ms with
    | some m' => some m'
    | none => if m.target_field = k then some m else none

/-- Payload update performed by one non-failing mapping. -/
def payloadWrite (today : Date) (r : SourceRecord)
    (acc : List (String × Value)) (m : FieldMapping) : List (String × Value) :=
  setKey acc m.target_field (writtenValue today r m)

/-! ### Lemmas about the compiler -/

theorem applyTransform_absent (today : Date) (r : SourceRecord) (name : Option String) :
    applyTransform today r name none = none := rfl

theorem finalValue_eq_none (today : Date) (r : SourceRecord) (m : FieldMapping)
    (h1 : resolve r m.source_field = none) (h2 : m.default_value = none) :
    finalValue today r m = none := by
  simp [finalValue, h1, h2, applyTransform]

theorem lookupPayload_setKey (p : List (String × Value)) (k : String) (v : Value)
    (k' : String) :
    lookupPayload (setKey p k v) k' = if k = k' then some v else lookupPayload p k' := by
  induction p with
  | nil => by_cases h : k = k' <;> simp [setKey, lookupPayload, h]
  | cons e rest ih =>
    obtain ⟨a, b⟩ := e
    by_cases hak : a = k
    · subst hak
      by_cases hk' : a = k' <;> simp [setKey, lookupPayload, hk']
    · by_cases hk' : a = k'
      · subst hk'
        have : ¬ k = a := fun hc => hak hc.symm
        simp [setKey, lookupPayload, hak, this]
      · simp [setKey, lookupPayload, hak, hk', ih]

theorem compileAux_error_of_failing (today : Date) (r : SourceRecord) :
    ∀ l : List FieldMapping,
      (∃ m ∈ l, m.is_required = true ∧ finalValue today r m = none) →
      ∃ m ∈ l, m.is_required = true ∧ finalValue today r m = none ∧
        ∀ acc, compileAux today r l acc = Except.error (requiredErrorMessage m.target_field)
  | [], h => by simp at h
  | m0 :: l', h => by
    by_cases h0 : m0.is_required = true ∧ finalValue today r m0 = none
    · exact ⟨m0, List.mem_cons_self m0 l', h0.1, h0.2,
        fun acc => by simp [compileAux, h0]⟩
    · have htail : ∃ m ∈ l', m.is_required = true ∧ finalValue today r m = none := by
        obtain ⟨m, hm, hreq, hfin⟩ := h
        rcases List.mem_cons.mp hm with rfl | hm'
        · exact absurd ⟨hreq, hfin⟩ h0
        · exact ⟨m, hm', hreq, hfin⟩
      obtain ⟨m, hm, hreq, hfin, herr⟩ := compileAux_error_of_failing today r l' htail
      exact ⟨m, List.mem_cons_of_mem m0 hm, hreq, hfin,
        fun acc => by simp [compileAux, h0, herr]⟩

theorem compileAux_ok (today : Date) (r : SourceRecord) :
    ∀ l : List FieldMapping,
      (∀ m ∈ l, m.is_required = true → (finalValue today r m).isSome) →
      ∀ acc, compileAux today r l acc =
        Except.ok (l.foldl (payloadWrite today r) acc)
  | [], _, acc => rfl
  | m0 :: l', h, acc => by
    have h0 : ¬ (m0.is_required = true ∧ finalValue today r m0 = none) := by
      rintro ⟨hreq, hfin⟩
      have := h m0 (List.mem_cons_self m0 l') hreq
      simp [hfin] at this
    have htail : ∀ m ∈ l', m.is_required = true → (finalValue today r m).isSome :=
      fun m hm => h m (List.mem_cons_of_mem m0 hm)
    have step : compileAux today r (m0 :: l') acc =
        compileAux today r l' (payloadWrite today r acc m0) := by
      simp [compileAux, h0, payloadWrite]
    rw [step, List.foldl_cons]
    exact compileAux_ok today r l' htail (payloadWrite today r acc m0)

theorem lookupPayload_foldl_write (today : Date) (r : SourceRecord) :
    ∀ (l : List FieldMapping) (acc : List (String × Value)) (k : String),
      lookupPayload (l.foldl (payloadWrite today r) acc) k =
        match lastWithTarget k l with
        | some m => some (writtenValue today r m)
        | none => lookupPayload acc k
  | [], _, _ => by simp [lastWithTarget]
  | m0 :: l', acc, k => by
    rw [List.foldl_cons, lookupPayload_foldl_write today r l' (payloadWrite today r acc m0) k]
    cases h' : lastWithTarget k l' with
    | some m => simp [lastWithTarget, h']
    | none =>
      by_cases ht : m0.target_field = k <;>
        simp [lastWithTarget, h', ht, payloadWrite, lookupPayload_setKey]

theorem lastWithTarget_eq_none_iff (k : String) :
    ∀ l : List FieldMapping, lastWithTarget k l = none ↔ ∀ m ∈ l, m.target_field ≠ k
  | [] => by simp [lastWithTarget]
  | m0 :: l' => by
    constructor
    · intro h m hm
      cases h' : lastWithTarget k l' with
      | some m1 => simp [lastWithTarget, h'] at h
      | none =>
        by_cases ht : m0.target_field = k
        · simp [lastWithTarget, h', ht] at h
        · rcases List.mem_cons.mp hm with rfl | hmem
          · exact ht
          · exact (lastWithTarget_eq_none_iff k l').mp h' m hmem
    · intro h
      have h' : lastWithTarget k l' = none :=
        (lastWithTarget_eq_none_iff k l').mpr fun m hm => h m (List.mem_cons_of_mem m0 hm)
      simp [lastWithTarget, h', h m0 (List.mem_cons_self m0 l')]

theorem lastWithTarget_mem (k : String) :
    ∀ l : List FieldMapping, ∀ m : FieldMapping,
      lastWithTarget k l = some m → m ∈ l ∧ m.target_field = k
  | [], m => by simp [lastWithTarget]
  | m0 :: l', m => by
    cases h' : lastWithTarget k l' with
    | some m' =>
      intro h
      have hm : m' = m := by simpa [lastWithTarget, h'] using h
      obtain ⟨hmem, hk⟩ := lastWithTarget_mem k l' m' h'
      exact ⟨List.mem_cons_of_mem m0 (hm ▸ hmem), hm ▸ hk⟩
    | none =>
      by_cases ht : m0.target_field = k
      · intro h
        have hm : m0 = m := by simpa [lastWithTarget, h', ht] using h
        exact ⟨hm ▸ List.mem_cons_self m0 l', hm ▸ ht⟩
      · intro h
        simp [lastWithTarget, h', ht] at h

theorem lastWithTarget_max_order (k : String) :
    ∀ l : List FieldMapping, List.Sorted mappingLE l →
      ∀ m : FieldMapping, lastWithTarget k l = some m →
        ∀ m' ∈ l, m'.target_field = k → m'.field_order ≤ m.field_order
  | [], _, m => by simp [lastWithTarget]
  | m0 :: l', hs, m => by
    have hhead : ∀ b ∈ l', mappingLE m0 b := (List.sorted_cons.mp hs).1
    have htail : List.Sorted mappingLE l' := (List.sorted_cons.mp hs).2
    cases h' : lastWithTarget k l' with
    | some m'' =>
      intro h
      have hm : m'' = m := by simpa [lastWithTarget, h'] using h
      intro m' hm' hk
      rcases List.mem_cons.mp hm' with rfl | hmem
      · exact hm ▸ hhead m'' (lastWithTarget_mem k l' m'' h').1
      · exact hm ▸ lastWithTarget_max_order k l' htail m'' h' m' hmem hk
    | none =>
      by_cases ht : m0.target_field = k
      · intro h
        have hm : m0 = m := by simpa [lastWithTarget, h', ht] using h
        intro m' hm' hk
        rcases List.mem_cons.mp hm' with rfl | hmem
        · exact hm ▸ Nat.le_refl m'.field_order
        · exact absurd hk ((lastWithTarget_eq_none_iff k l').mp h' m' hmem)
      · intro h
        simp [lastWithTarget, h', ht] at h

/-! ### Claim C1 -/

/-- C1: for every list of field mappings and every source record, if some
mapping is required, its source path resolves to absent and it has no
configured default, then compilation fails with a validation error naming
the target key of an offending required mapping, and no payload at all is
returned. -/
theorem c1_required_absent_all_or_nothing
    (today : Date) (r : SourceRecord) (ms : List FieldMapping)
    (h : ∃ m ∈ ms, m.is_required = true ∧ resolve r m.source_field = none ∧
      m.default_value = none) :
    (∀ p, compile today r ms ≠ Except.ok p) ∧
    ∃ m ∈ ms, m.is_required = true ∧ finalValue today r m = none ∧
      compile today r ms = Except.error (requiredErrorMessage m.target_field) := by
  obtain ⟨m, hm, hreq, hres, hdef⟩ := h
  obtain ⟨m', hm', hreq', hfin', herr⟩ := compileAux_error_of_failing today r ms
    ⟨m, hm, hreq, finalValue_eq_none today r m hres hdef⟩
  refine ⟨?_, m', hm', hreq', hfin', herr []⟩
  intro p hp
  rw [compile, herr []] at hp
  exact Except.noConfusion hp

/-- Sample mapping list for the C1 witness: one required mapping on a
source path the record does not provide, without a default. -/
def c1Mappings : List FieldMapping :=
  [⟨"m1", "int1", "monthly_income", "income", none, none, true, 0⟩]

/-- Sample record for the C1 witness: the application record provides only
the loan amount. -/
def c1Record : SourceRecord :=
  ⟨[("amount", Value.num 5000)]⟩

theorem c1_witness :
    (∃ m ∈ c1Mappings, m.is_required = true ∧ resolve c1Record m.source_field = none ∧
      m.default_value = none) ∧
    ((∀ p, compile ⟨2024, 6, 14⟩ c1Record c1Mappings ≠ Except.ok p) ∧
     ∃ m ∈ c1Mappings, m.is_required = true ∧ finalValue ⟨2024, 6, 14⟩ c1Record m = none ∧
       compile ⟨2024, 6, 14⟩ c1Record c1Mappings =
         Except.error (requiredErrorMessage m.target_field)) :=
  ⟨by decide, c1_required_absent_all_or_nothing ⟨2024, 6, 14⟩ c1Record c1Mappings (by decide)⟩

/-! ### Claim C3 -/

/-- C3: for every stored mapping table and record satisfying all required
field paths, the compiler consumes the mappings of the integration in
ascending display order (the fetch is sorted by field_order and loses no
row), succeeds, and produces a payload whose keys are exactly the
configured target keys; on a key collision the binding comes from the last
mapping in display order with that target, whose field_order is maximal
among the colliding mappings. -/
theorem c3_ascending_order_last_write_wins
    (today : Date) (r : SourceRecord) (db : List FieldMapping) (iid : String)
    (hreq : ∀ m ∈ fetchFieldMappings db iid, m.is_required = true →
      (finalValue today r m).isSome) :
    List.Sorted mappingLE (fetchFieldMappings db iid) ∧
    List.Perm (fetchFieldMappings db iid)
      (db.filter fun m => m.integration_id == iid) ∧
    ∃ p, compile today r (fetchFieldMappings db iid) = Except.ok p ∧
      (∀ k, (lookupPayload p k).isSome ↔
        k ∈ (fetchFieldMappings db iid).map FieldMapping.target_field) ∧
      ∀ k m, lastWithTarget k (fetchFieldMappings db iid) = some m →
        lookupPayload p k = some (writtenValue today r m) ∧
        ∀ m' ∈ fetchFieldMappings db iid, m'.target_field = k →
          m'.field_order ≤ m.field_order := by
  set l := fetchFieldMappings db iid with hl
  have hsorted : List.Sorted mappingLE l :=
    List.sorted_insertionSort mappingLE _
  refine ⟨hsorted, List.perm_insertionSort mappingLE _, l.foldl (payloadWrite today r) [],
    compileAux_ok today r l hreq [], ?_, ?_⟩
  · intro k
    rw [lookupPayload_foldl_write today r l [] k]
    cases h' : lastWithTarget k l with
    | some m =>
      obtain ⟨hmem, hk⟩ := lastWithTarget_mem k l m h'
      simp only [Option.isSome_some, true_iff]
      exact List.mem_map.mpr ⟨m, hmem, hk⟩
    | none =>
      simp only [lookupPayload, Option.isSome_none, Bool.false_eq_true, false_iff]
      intro hk
      obtain ⟨m, hmem, hkeq⟩ := List.mem_map.mp hk
      exact (lastWithTarget_eq_none_iff k l).mp h' m hmem hkeq
  · intro k m hlast
    refine ⟨?_, lastWithTarget_max_order k l hsorted m hlast⟩
    rw [lookupPayload_foldl_write today r l [] k, hlast]

/-- Sample mapping table for the C3 witness: two mappings of one
integration collide on the target key amount, a third belongs to another
integration. -/
def c3Db : List FieldMapping :=
  [⟨"m2", "int1", "purpose", "amount", none, some "unknown", false, 1⟩,
   ⟨"m1", "int1", "amount", "amount", none, none, true, 0⟩,
   ⟨"m3", "int2", "amount", "other", none, none, true, 0⟩]

/-- Sample record for the C3 witness. -/
def c3Record : SourceRecord :=
  ⟨[("amount", Value.num 5000), ("purpose", Value.str "car")]⟩

theorem c3_witness :
    (∀ m ∈ fetchFieldMappings c3Db "int1", m.is_required = true →
      (finalValue ⟨2024, 6, 14⟩ c3Record m).isSome) ∧
    (List.Sorted mappingLE (fetchFieldMappings c3Db "int1") ∧
     List.Perm (fetchFieldMappings c3Db "int1")
       (c3Db.filter fun m => m.integration_id == "int1") ∧
     ∃ p, compile ⟨2024, 6, 14⟩ c3Record (fetchFieldMappings c3Db "int1") = Except.ok p ∧
       (∀ k, (lookupPayload p k).isSome ↔
         k ∈ (fetchFieldMappings c3Db "int1").map FieldMapping.target_field) ∧
       ∀ k m, lastWithTarget k (fetchFieldMappings c3Db "int1") = some m →
         lookupPayload p k = some (writtenValue ⟨2024, 6, 14⟩ c3Record m) ∧
         ∀ m' ∈ fetchFieldMappings c3Db "int1", m'.target_field = k →
           m'.field_order ≤ m.field_order) :=
  ⟨by decide, c3_ascending_order_last_write_wins ⟨2024, 6, 14⟩ c3Record c3Db "int1" (by decide)⟩

/-! ### Claim C7 -/

/-- C7: calculate_age computes whole years by calendar-aware subtraction:
for birth date 2000-06-15 it yields 23 against 2024-06-14 and 24 against
2024-06-15, both directly and through the transformer catalog, and the
fixed 365-day-divisor reading disagrees on the first date. -/
theorem c7_calculate_age_calendar_aware :
    calculateAge ⟨2000, 6, 15⟩ ⟨2024, 6, 14⟩ = 23 ∧
    calculateAge ⟨2000, 6, 15⟩ ⟨2024, 6, 15⟩ = 24 ∧
    applyTransform ⟨2024, 6, 14⟩ ⟨[]⟩ (some "calculate_age")
      (some (Value.str "2000-06-15")) = some (Value.num 23) ∧
    applyTransform ⟨2024, 6, 15⟩ ⟨[]⟩ (some "calculate_age")
      (some (Value.str "2000-06-15")) = some (Value.num 24) ∧
    fixedDivisorAge ⟨2000, 6, 15⟩ ⟨2024, 6, 14⟩ ≠
      calculateAge ⟨2000, 6, 15⟩ ⟨2024, 6, 14⟩ := by
  refine ⟨by decide, by decide, ?_, ?_, by decide⟩ <;> rfl

/-! ### Claim C9 -/

/-- Embeds the field_order computation of onSubmitMapping in the admin
screen.  The source expression reads the optional chain on the mapping
being edited, then applies the JavaScript or-else operator against the
count of currently listed mappings; undefined and the number 0 are both
falsy, so a missing editing target and a zero stored order alike fall
through to the count. -/
def savedFieldOrder (editingMapping : Option FieldMapping) (mappingCount : Nat) : Nat :=
  match editingMapping with
  | none => mappingCount
  | some m => if m.field_order = 0 then mappingCount else m.field_order

/-- C9: saving through the mapping dialog appends a new mapping at order
equal to the current mapping count, keeps a nonzero order on edit, and
reassigns a zero order to the current count; hence an edited mapping keeps
its order exactly when that order is nonzero (whenever the listed count is
itself nonzero). -/
theorem c9_field_order_assignment (m : FieldMapping) (count : Nat) :
    savedFieldOrder none count = count ∧
    (m.field_order ≠ 0 → savedFieldOrder (some m) count = m.field_order) ∧
    (m.field_order = 0 → savedFieldOrder (some m) count = count) ∧
    (count ≠ 0 → (savedFieldOrder (some m) count = m.field_order ↔ m.field_order ≠ 0)) := by
  refine ⟨rfl, ?_, ?_, ?_⟩
  · intro hne
    simp [savedFieldOrder, hne]
  · intro h0
    simp [savedFieldOrder, h0]
  · intro hc
    by_cases h : m.field_order = 0
    · simpa [savedFieldOrder, h] using hc
    · simp [savedFieldOrder, h]

/-- Mapping with a nonzero display order, for the C9 witness. -/
def c9EditTarget : FieldMapping :=
  ⟨"m2", "int1", "purpose", "loan_purpose", none, none, false, 2⟩

/-- Mapping sitting at display order zero, for the C9 witness. -/
def c9FirstMapping : FieldMapping :=
  ⟨"m1", "int1", "amount", "loan_amount", none, none, true, 0⟩

theorem c9_witness :
    savedFieldOrder none 5 = 5 ∧
    savedFieldOrder (some c9EditTarget) 5 = c9EditTarget.field_order ∧
    savedFieldOrder (some c9FirstMapping) 5 = 5 :=
  ⟨(c9_field_order_assignment c9FirstMapping 5).1,
   (c9_field_order_assignment c9EditTarget 5).2.1 (by decide),
   (c9_field_order_assignment c9FirstMapping 5).2.2.1 (by decide)⟩

/-! ### Claim C10 -/

/-- Embeds the transformation field of onSubmitMapping in the admin
screen: the saved row stores null when the form value is the literal none,
and the form value itself otherwise. -/
def savedTransformation (formValue : String) : Option String :=
  if formValue = "none" then none else some formValue

/-- Embeds the transformation reset of openMappingDialog in the admin
screen: the form shows the stored transformation, with the JavaScript
or-else operator turning a null (or empty, both falsy) stored value into
the literal none. -/
def formTransformation (stored : Option String) : String :=
  match stored with
  | none => "none"
  | some s => if s = "" then "none" else s

/-- C10: saving the literal none persists null, every other catalog
transformer name is persisted verbatim, no saved row stores the string
none, a null stored transformation reopens as none, and save followed by
reopen is the identity on the catalog. -/
theorem c10_none_transformation_round_trip :
    savedTransformation "none" = none ∧
    (∀ t ∈ TRANSFORMATIONS, t ≠ "none" → savedTransformation t = some t) ∧
    (∀ t : String, savedTransformation t ≠ some "none") ∧
    formTransformation none = "none" ∧
    ∀ t ∈ TRANSFORMATIONS, formTransformation (savedTransformation t) = t := by
  refine ⟨rfl, by decide, ?_, rfl, by decide⟩
  intro t
  by_cases h : t = "none" <;> simp [savedTransformation, h]

theorem c10_witness :
    savedTransformation "uppercase" = some "uppercase" ∧
    formTransformation (savedTransformation "none") = "none" ∧
    formTransformation (savedTransformation "date_format") = "date_format" :=
  ⟨c10_none_transformation_round_trip.2.1 "uppercase" (by decide) (by decide),
   c10_none_transformation_round_trip.2.2.2.2 "none" (by decide),
   c10_none_transformation_round_trip.2.2.2.2 "date_format" (by decide)⟩

/-! ### Claim C8 -/

/-- Persisted execution log row, from the WebhookLog interface of the
admin screen; creation timestamps are modelled as numbers. -/
structure WebhookLog where
  id : String
  integration_id : String
  status : String
  created_at : Nat
  deriving DecidableEq, Repr

/-- Newest-first order on log entries: descending creation timestamp. -/
def logNewerLE (a b : WebhookLog) : Prop :=
  b.created_at ≤ a.created_at

instance : DecidableRel logNewerLE :=
  fun a b => inferInstanceAs (Decidable (b.created_at ≤ a.created_at))

instance : IsTotal WebhookLog logNewerLE :=
  ⟨fun a b => Nat.le_total b.created_at a.created_at⟩

instance : IsTrans WebhookLog logNewerLE :=
  ⟨fun _ _ _ h1 h2 => Nat.le_trans h2 h1⟩

/-- Log store query: entries ordered by descending created_at, truncated
to the requested limit, as issued by the admin screen. -/
def queryLogs (store : List WebhookLog) (limit : Nat) : List WebhookLog :=
  (List.insertionSort logNewerLE store).take limit

/-- Embeds fetchLogs of the admin screen: the log view orders by
descending created_at and requests at most 100 entries. -/
def fetchLogs (store : List WebhookLog) : List WebhookLog :=
  queryLogs store 100

/-- C8: every log store query returns entries ordered newest-first and at
most the requested limit, and the operator log view requests at most 100
entries. -/
theorem c8_logs_newest_first_limited (store : List WebhookLog) (limit : Nat) :
    List.Sorted logNewerLE (queryLogs store limit) ∧
    (queryLogs store limit).length ≤ limit ∧
    fetchLogs store = queryLogs store 100 ∧
    (fetchLogs store).length ≤ 100 := by
  refine ⟨?_, ?_, rfl, ?_⟩
  · exact (List.sorted_insertionSort logNewerLE store).sublist
      (List.take_sublist limit (List.insertionSort logNewerLE store))
  · exact List.length_take_le limit (List.insertionSort logNewerLE store)
  · exact List.length_take_le 100 (List.insertionSort logNewerLE store)

/-! ### Claim C4 -/

/-- Characters allowed in a URL scheme after the leading letter. -/
def isSchemeChar (c : Char) : Bool :=
  c.isAlpha || c.isDigit || c = '+' || c = '-' || c = '.'

/-- Splits a character list at the first colon into the scheme part and
the remainder; none when no colon occurs. -/
def splitSchemeAux : List Char → Option (List Char × List Char)
  | [] => none
  | c :: cs =>
    if c = ':' then some ([], cs)
    else
      match splitSchemeAux cs with
      | some p => some (c :: p.1, p.2)
      | none => none

/-- Special schemes whose URL form requires an authority with a host. -/
def specialSchemes : List String :=
  ["http", "https", "ftp", "ws", "wss"]

/-- Models the WHATWG URL-constructor acceptance that the zod url check of
webhookSchema relies on (the check succeeds exactly when constructing a
URL from the string does not throw): the string must open with a scheme
(an ASCII letter followed by letters, digits, plus, minus or dot)
terminated by a colon, and a special scheme such as http, https or ftp
must continue with two slashes and a nonempty host.  The scheme is not
restricted to http or https. -/
def isValidURL (s : String) : Bool :=
  match splitSchemeAux s.data with
  | none => false
  | some (sch, rest) =>
    match sch with
    | [] => false
    | c :: cs =>
      c.isAlpha && cs.all isSchemeChar &&
      (if specialSchemes.contains (asciiLower ⟨sch⟩) then
        match rest with
        | '/' :: '/' :: h :: _ => !(h = '/' || h = '?' || h = '#')
        | _ => false
      else true)

/-- Form data validated by webhookSchema, from the WebhookFormData type of
the admin screen; the numeric fields arrive as integers because the form
inputs parse them with parseInt. -/
structure WebhookFormData where
  name : String
  description : Option String
  webhook_url : String
  api_key : Option String
  method : String
  retry_attempts : Int
  retry_delay_seconds : Int
  timeout_seconds : Int
  deriving DecidableEq, Repr

/-- Embeds webhookSchema of the admin screen: name nonempty, webhook_url
passing the zod url check, method one of POST, PUT or PATCH,
retry_attempts in 0..5, retry_delay_seconds in 0..3600 and
timeout_seconds in 1..300; description and api_key are optional and
unconstrained. -/
def webhookSchema (d : WebhookFormData) : Bool :=
  decide (1 ≤ d.name.length) &&
  isValidURL d.webhook_url &&
  (d.method == "POST" || d.method == "PUT" || d.method == "PATCH") &&
  decide (0 ≤ d.retry_attempts) && decide (d.retry_attempts ≤ 5) &&
  decide (0 ≤ d.retry_delay_seconds) && decide (d.retry_delay_seconds ≤ 3600) &&
  decide (1 ≤ d.timeout_seconds) && decide (d.timeout_seconds ≤ 300)

/-- Reading of the claim in the words of the spec: the stored URL is an
absolute URL whose scheme is http or https. -/
def specHTTPSchemeURL (s : String) : Bool :=
  "http://".data.isPrefixOf s.data || "https://".data.isPrefixOf s.data

/-- C4 (amended): every integration accepted at write time has a
well-formed absolute URL, an allowed method and retry/timeout values
inside the advertised bounds, so out-of-range values never reach a stored
integration; the schema does not restrict the URL scheme to HTTP(S). -/
theorem c4_write_time_validation (d : WebhookFormData)
    (h : webhookSchema d = true) :
    isValidURL d.webhook_url = true ∧
    (d.method = "POST" ∨ d.method = "PUT" ∨ d.method = "PATCH") ∧
    0 ≤ d.retry_attempts ∧ d.retry_attempts ≤ 5 ∧
    0 ≤ d.retry_delay_seconds ∧ d.retry_delay_seconds ≤ 3600 ∧
    1 ≤ d.timeout_seconds ∧ d.timeout_seconds ≤ 300 := by
  rw [webhookSchema] at h
  simp only [Bool.and_eq_true, Bool.or_eq_true, beq_iff_eq, decide_eq_true_eq] at h
  tauto

/-- Integration form payload with an FTP destination, otherwise valid. -/
def ftpIntegrationForm : WebhookFormData :=
  ⟨"CRM sync", none, "ftp://example.com/hook", none, "POST", 3, 60, 30⟩

/-- C4 counterexample: the write-time schema accepts a destination URL
whose scheme is ftp, so accepted integrations are not restricted to
HTTP(S) URLs. -/
theorem c4_counterexample :
    webhookSchema ftpIntegrationForm = true ∧
    specHTTPSchemeURL ftpIntegrationForm.webhook_url = false := by
  constructor <;> rfl

/-- Integration form payload with an HTTPS destination, for the witness. -/
def validIntegrationForm : WebhookFormData :=
  ⟨"CRM sync", none, "https://api.example.com/hook", some "key-1", "POST", 3, 60, 30⟩

theorem c4_witness :
    webhookSchema validIntegrationForm = true ∧
    (isValidURL validIntegrationForm.webhook_url = true ∧
     (validIntegrationForm.method = "POST" ∨ validIntegrationForm.method = "PUT" ∨
       validIntegrationForm.method = "PATCH") ∧
     0 ≤ validIntegrationForm.retry_attempts ∧ validIntegrationForm.retry_attempts ≤ 5 ∧
     0 ≤ validIntegrationForm.retry_delay_seconds ∧
     validIntegrationForm.retry_delay_seconds ≤ 3600 ∧
     1 ≤ validIntegrationForm.timeout_seconds ∧
     validIntegrationForm.timeout_seconds ≤ 300) :=
  ⟨by rfl, c4_write_time_validation validIntegrationForm (by rfl)⟩

/-! ### Claim C2 -/

/-- Result of one HTTP round trip: a status code, or a network or timeout
error (the spec treats an exceeded timeout identically to a network
error). -/
inductive HttpResult where
  | response (status : Nat)
  | networkError
  deriving DecidableEq, Repr

/-- Classified outcome of one delivery attempt. -/
inductive Outcome where
  | success
  | permanentFailure
  | retryable
  deriving DecidableEq, Repr

/-- Modelled from the spec: outcome classification of the Dispatcher in
the missing edge function; any 2xx response succeeds, a 4xx response is a
permanent rejection, and every other result (5xx, other statuses, network
or timeout errors) is retryable. -/
def classify : HttpResult → Outcome
  | HttpResult.response s =>
    if 200 ≤ s ∧ s ≤ 299 then Outcome.success
    else if 400 ≤ s ∧ s ≤ 499 then Outcome.permanentFailure
    else Outcome.retryable
  | HttpResult.networkError => Outcome.retryable

/-- Status recorded on one execution log entry. -/
inductive LogStatus where
  | pending
  | success
  | failed
  | retrying
  deriving DecidableEq, Repr

/-- Modelled from the spec: the retry loop of the Dispatcher in the
missing edge function.  The oracle gives the HTTP result of each attempt
by attempt index; every attempt appends exactly one log entry, a
retryable attempt with remaining budget logs retrying and re-enters the
loop, and an exhausted or permanently rejected attempt logs failed. -/
def runAttempts (resp : Nat → HttpResult) : Nat → Nat → List LogStatus
  | i, 0 =>
    match classify (resp i) with
    | Outcome.success => [LogStatus.success]
    | Outcome.permanentFailure => [LogStatus.failed]
    | Outcome.retryable => [LogStatus.failed]
  | i, rem + 1 =>
    match classify (resp i) with
    | Outcome.success => [LogStatus.success]
    | Outcome.permanentFailure => [LogStatus.failed]
    | Outcome.retryable => LogStatus.retrying :: runAttempts resp (i + 1) rem

/-- Modelled from the spec: a dispatch performs the first attempt plus up
to retry_attempts further tries, producing one log entry per attempt. -/
def dispatch (resp : Nat → HttpResult) (retry_attempts : Nat) : List LogStatus :=
  runAttempts resp 0 retry_attempts

theorem classify_retryable_of_5xx_or_network (h : HttpResult)
    (hr : (∃ s, h = HttpResult.response s ∧ 500 ≤ s ∧ s ≤ 599) ∨
      h = HttpResult.networkError) :
    classify h = Outcome.retryable := by
  rcases hr with ⟨s, rfl, h5, h5'⟩ | rfl
  · have h2 : ¬ (200 ≤ s ∧ s ≤ 299) := fun hc => by omega
    have h4 : ¬ (400 ≤ s ∧ s ≤ 499) := fun hc => by omega
    simp [classify, h2, h4]
  · rfl

theorem runAttempts_all_retryable (resp : Nat → HttpResult) :
    ∀ rem i, (∀ j, j ≤ rem → classify (resp (i + j)) = Outcome.retryable) →
      runAttempts resp i rem = List.replicate rem LogStatus.retrying ++ [LogStatus.failed]
  | 0, i, h => by
    have h0 := h 0 (Nat.le_refl 0)
    rw [Nat.add_zero] at h0
    simp [runAttempts, h0]
  | rem + 1, i, h => by
    have h0 := h 0 (Nat.zero_le _)
    rw [Nat.add_zero] at h0
    have htail : ∀ j, j ≤ rem → classify (resp (i + 1 + j)) = Outcome.retryable := by
      intro j hj
      have := h (j + 1) (Nat.succ_le_succ hj)
      rwa [show i + (j + 1) = i + 1 + j by omega] at this
    simp [runAttempts, h0, List.replicate_succ,
      runAttempts_all_retryable resp rem (i + 1) htail]

theorem runAttempts_success_after_retryable (resp : Nat → HttpResult) :
    ∀ j rem i, j ≤ rem → classify (resp (i + j)) = Outcome.success →
      (∀ t, t < j → classify (resp (i + t)) = Outcome.retryable) →
      runAttempts resp i rem = List.replicate j LogStatus.retrying ++ [LogStatus.success]
  | 0, rem, i, _, hs, _ => by
    rw [Nat.add_zero] at hs
    cases rem <;> simp [runAttempts, hs]
  | j + 1, rem + 1, i, hj, hs, hr => by
    have h0 := hr 0 (Nat.succ_pos j)
    rw [Nat.add_zero] at h0
    have hs' : classify (resp (i + 1 + j)) = Outcome.success := by
      rwa [show i + 1 + j = i + (j + 1) by omega]
    have hr' : ∀ t, t < j → classify (resp (i + 1 + t)) = Outcome.retryable := by
      intro t ht
      have := hr (t + 1) (Nat.succ_lt_succ ht)
      rwa [show i + (t + 1) = i + 1 + t by omega] at this
    simp [runAttempts, h0, List.replicate_succ,
      runAttempts_success_after_retryable resp j rem (i + 1)
        (Nat.le_of_succ_le_succ hj) hs' hr']

/-- C2: a dispatch whose every attempt yields a 5xx response or a
network/timeout error performs exactly retry_attempts + 1 attempts,
appending exactly that many log entries, the last one failed; a first
attempt answered 4xx appends exactly one failed entry with no retry; and
an attempt answered 2xx (reached after only retryable attempts) ends the
dispatch with a success entry. -/
theorem c2_retry_policy (resp : Nat → HttpResult) (n : Nat) :
    ((∀ i, i ≤ n → (∃ s, resp i = HttpResult.response s ∧ 500 ≤ s ∧ s ≤ 599) ∨
        resp i = HttpResult.networkError) →
      dispatch resp n = List.replicate n LogStatus.retrying ++ [LogStatus.failed] ∧
      (dispatch resp n).length = n + 1 ∧
      (dispatch resp n).getLast? = some LogStatus.failed) ∧
    (∀ s, resp 0 = HttpResult.response s → 400 ≤ s → s ≤ 499 →
      dispatch resp n = [LogStatus.failed]) ∧
    (∀ j s, j ≤ n → resp j = HttpResult.response s → 200 ≤ s → s ≤ 299 →
      (∀ t, t < j → classify (resp t) = Outcome.retryable) →
      dispatch resp n = List.replicate j LogStatus.retrying ++ [LogStatus.success]) := by
  refine ⟨?_, ?_, ?_⟩
  · intro h
    have hr : ∀ j, j ≤ n → classify (resp (0 + j)) = Outcome.retryable := by
      intro j hj
      rw [Nat.zero_add]
      exact classify_retryable_of_5xx_or_network (resp j) (h j hj)
    have he := runAttempts_all_retryable resp n 0 hr
    rw [dispatch, he]
    refine ⟨rfl, ?_, List.getLast?_concat _⟩
    simp [List.length_replicate]
  · intro s h0 h4 h4'
    have h2 : ¬ (200 ≤ s ∧ s ≤ 299) := fun hc => by omega
    have hc : classify (resp 0) = Outcome.permanentFailure := by
      simp [classify, h0, h2, h4, h4']
    cases n <;> simp [dispatch, runAttempts, hc]
  · intro j s hj hresp h2 h2' hr
    have hs : classify (resp (0 + j)) = Outcome.success := by
      rw [Nat.zero_add]
      simp [classify, hresp, h2, h2']
    have hr' : ∀ t, t < j → classify (resp (0 + t)) = Outcome.retryable := by
      intro t ht
      rw [Nat.zero_add]
      exact hr t ht
    exact runAttempts_success_after_retryable resp j n 0 hj hs hr'

theorem c2_witness :
    (dispatch (fun _ => HttpResult.response 500) 2 =
      List.replicate 2 LogStatus.retrying ++ [LogStatus.failed] ∧
     (dispatch (fun _ => HttpResult.response 500) 2).length = 2 + 1 ∧
     (dispatch (fun _ => HttpResult.response 500) 2).getLast? = some LogStatus.failed) ∧
    dispatch (fun _ => HttpResult.response 404) 3 = [LogStatus.failed] ∧
    dispatch (fun _ => HttpResult.response 200) 3 =
      List.replicate 0 LogStatus.retrying ++ [LogStatus.success] :=
  ⟨(c2_retry_policy (fun _ => HttpResult.response 500) 2).1
      (fun i _ => Or.inl ⟨500, rfl, by decide, by decide⟩),
   (c2_retry_policy (fun _ => HttpResult.response 404) 3).2.1 404 rfl
      (by decide) (by decide),
   (c2_retry_policy (fun _ => HttpResult.response 200) 3).2.2 0 200
      (Nat.zero_le 3) rfl (by decide) (by decide)
      (fun t ht => absurd ht (Nat.not_lt_zero t))⟩

/-! ### Claim C5 -/

/-- Persisted integration row, from the WebhookIntegration interface of
the admin screen. -/
structure Integration where
  id : String
  name : String
  description : Option String
  webhook_url : String
  api_key : Option String
  headers : List (String × String)
  method : String
  is_active : Bool
  retry_attempts : Nat
  retry_delay_seconds : Nat
  timeout_seconds : Nat
  deriving DecidableEq, Repr

/-- Outgoing HTTP request assembled by the Dispatcher. -/
structure HttpRequest where
  url : String
  method : String
  headers : List (String × String)
  body : List (String × Value)
  deriving DecidableEq, Repr

/-- Modelled from the spec: request construction by the Dispatcher in the
missing edge function; method and URL come from the integration, the
headers are the content-type declaration followed by the stored custom
headers, and a configured API key is attached both as a bearer
Authorization header and as the vendor X-API-Key header (the form of the
admin screen documents exactly this double attachment). -/
def buildRequest (integ : Integration) (payload : List (String × Value)) : HttpRequest :=
  { url := integ.webhook_url
    method := integ.method
    headers :=
      ("Content-Type", "application/json") :: integ.headers ++
        (match integ.api_key with
         | some k => [("Authorization", "Bearer " ++ k), ("X-API-Key", k)]
         | none => [])
    body := payload }

/-- C5: every request sent for an integration uses the configured method
and URL, carries a content-type declaration and all configured custom
headers, and, whenever an API key is configured, carries it both as a
bearer Authorization header and as the X-API-Key header. -/
theorem c5_request_construction (integ : Integration) (payload : List (String × Value)) :
    (buildRequest integ payload).method = integ.method ∧
    (buildRequest integ payload).url = integ.webhook_url ∧
    ("Content-Type", "application/json") ∈ (buildRequest integ payload).headers ∧
    (∀ h ∈ integ.headers, h ∈ (buildRequest integ payload).headers) ∧
    ∀ k, integ.api_key = some k →
      ("Authorization", "Bearer " ++ k) ∈ (buildRequest integ payload).headers ∧
      ("X-API-Key", k) ∈ (buildRequest integ payload).headers := by
  refine ⟨rfl, rfl, List.mem_cons_self _ _, ?_, ?_⟩
  · intro h hh
    exact List.mem_cons_of_mem _ (List.mem_append_left _ hh)
  · intro k hk
    constructor <;>
      exact List.mem_cons_of_mem _ (List.mem_append_right _ (by simp [hk]))

/-- Integration fixture with an API key and one custom header. -/
def c5Integration : Integration :=
  ⟨"int1", "CRM sync", none, "https://api.example.com/hook", some "secret-1",
   [("X-Env", "prod")], "POST", true, 3, 60, 30⟩

theorem c5_witness :
    ("X-Env", "prod") ∈ (buildRequest c5Integration []).headers ∧
    ("Authorization", "Bearer secret-1") ∈ (buildRequest c5Integration []).headers ∧
    ("X-API-Key", "secret-1") ∈ (buildRequest c5Integration []).headers :=
  ⟨(c5_request_construction c5Integration []).2.2.2.1 ("X-Env", "prod") (by decide),
   ((c5_request_construction c5Integration []).2.2.2.2 "secret-1" rfl).1,
   ((c5_request_construction c5Integration []).2.2.2.2 "secret-1" rfl).2⟩

/-! ### Claim C6 -/

/-- Modelled from the spec: the representative sample record a test
invocation synthesizes instead of reading a real application. -/
def sampleRecord : SourceRecord :=
  ⟨[("amount", Value.num 50000), ("purpose", Value.str "Personal Loan"),
    ("term_months", Value.num 24), ("monthly_income", Value.num 3000),
    ("profiles.full_name", Value.str "John Doe"),
    ("profiles.email", Value.str "john.doe@example.com"),
    ("profiles.phone_number", Value.str "+15550100"),
    ("profiles.date_of_birth", Value.str "1990-01-15")]⟩

/-- Observable result of one dispatch: the request that was sent and the
statuses of the appended log entries. -/
structure DispatchResult where
  request : HttpRequest
  logs : List LogStatus
  deriving DecidableEq, Repr

/-- Modelled from the spec: the compile, send and log pipeline shared by
production dispatch and test invocation; a compilation error aborts
before any network call. -/
def runPipeline (today : Date) (integ : Integration) (r : SourceRecord)
    (db : List FieldMapping) (resp : Nat → HttpResult) :
    Except String DispatchResult :=
  match compile today r (fetchFieldMappings db integ.id) with
  | Except.error e => Except.error e
  | Except.ok payload =>
    Except.ok ⟨buildRequest integ payload, dispatch resp integ.retry_attempts⟩

/-- Modelled from the spec and the testWebhook handler of the admin
screen: a test invocation passes only the integration identifier to the
pipeline and performs no enabled check, running on the synthesized sample
record. -/
def testWebhook (today : Date) (integ : Integration) (db : List FieldMapping)
    (resp : Nat → HttpResult) : Except String DispatchResult :=
  runPipeline today integ sampleRecord db resp

/-- Copy of an integration with the enabled flag set to the given value. -/
def setActive (integ : Integration) (b : Bool) : Integration :=
  { integ with is_active := b }

/-- Modelled from the spec: automatic event-triggered dispatch runs the
pipeline only when the integration is enabled. -/
def autoDispatch (today : Date) (integ : Integration) (r : SourceRecord)
    (db : List FieldMapping) (resp : Nat → HttpResult) :
    Option (Except String DispatchResult) :=
  if integ.is_active then some (runPipeline today integ r db resp) else none

/-- C6: a test invocation always runs the full compile, send and log
pipeline and returns its result, unchanged by the enabled flag, while
automatic dispatch runs exactly when the integration is enabled. -/
theorem c6_test_bypasses_enabled_flag (today : Date) (integ : Integration)
    (r : SourceRecord) (db : List FieldMapping) (resp : Nat → HttpResult) :
    testWebhook today integ db resp = runPipeline today integ sampleRecord db resp ∧
    testWebhook today (setActive integ false) db resp =
      testWebhook today (setActive integ true) db resp ∧
    (integ.is_active = false → autoDispatch today integ r db resp = none) ∧
    (integ.is_active = true → autoDispatch today integ r db resp =
      some (runPipeline today integ r db resp)) := by
  refine ⟨rfl, ?_, ?_, ?_⟩
  · rw [testWebhook, testWebhook, runPipeline, runPipeline]
    cases compile today sampleRecord (fetchFieldMappings db integ.id) <;> rfl
  · intro h
    simp [autoDispatch, h]
  · intro h
    simp [autoDispatch, h]

/-- Disabled integration fixture for the C6 witness. -/
def c6Disabled : Integration :=
  ⟨"int1", "CRM sync", none, "https://api.example.com/hook", none, [],
   "POST", false, 1, 60, 30⟩

theorem c6_witness :
    testWebhook ⟨2024, 6, 14⟩ c6Disabled [] (fun _ => HttpResult.response 200) =
      runPipeline ⟨2024, 6, 14⟩ c6Disabled sampleRecord [] (fun _ => HttpResult.response 200) ∧
    autoDispatch ⟨2024, 6, 14⟩ c6Disabled sampleRecord [] (fun _ => HttpResult.response 200) =
      none :=
  ⟨(c6_test_bypasses_enabled_flag ⟨2024, 6, 14⟩ c6Disabled sampleRecord []
      (fun _ => HttpResult.response 200)).1,
   (c6_test_bypasses_enabled_flag ⟨2024, 6, 14⟩ c6Disabled sampleRecord []
      (fun _ => HttpResult.response 200)).2.2.1 rfl⟩

end LoanAppAdmin
